import Mathlib

/-!
Verification of the IAC-Analyser core (`src/cli_analyzer.py`) against its
natural-language specification.

The Python source is shallowly embedded: text is `List Char`, Python
exceptions are the `Except PyErr` monad, the on-disk prompt directory and
the Bedrock client are function parameters, and the accumulating `results`
dict is an association list with Python-dict update semantics.  Recursive
helpers use an explicit fuel argument; the top-level entry points pass
fuel that a counting argument shows can never run out: the input length
for the single-pass scanners, which consume at least one character per
unit of fuel, and `3 * length + 3` for the mutually recursive JSON
parser, whose call chains consume at least one character per three units
of fuel (the argument is spelled out at `json_loads`).  The fuel keeps
every definition structurally recursive and kernel-computable.
-/

/-- `isStartOf pat s` is true when `pat` is an initial segment of `s`
(the matching primitive used to embed Python regex/`str` scanning). -/
def isStartOf : List Char → List Char → Bool
  | [], _ => true
  | _ :: _, [] => false
  | p :: ps, c :: cs => p == c && isStartOf ps cs

/-- `occursIn pat s` is true when `pat` occurs as a contiguous substring of `s`. -/
def occursIn (pat : List Char) : List Char → Bool
  | [] => isStartOf pat []
  | c :: cs => isStartOf pat (c :: cs) || occursIn pat cs

/-- All suffixes of a list, longest first (used to state where a pattern
may start inside a string). -/
def suffixes : List Char → List (List Char)
  | [] => [[]]
  | c :: cs => (c :: cs) :: suffixes cs

/-- The whitespace characters stripped by Python `str.strip()` (ASCII part;
the inputs of this program are ASCII-fenced model replies). -/
def pyWs (c : Char) : Bool :=
  c == ' ' || c == '\t' || c == '\n' || c == '\r' || c == '\x0b' || c == '\x0c'

/-- Python `str.strip()`: drop leading and trailing whitespace. -/
def pstrip (s : List Char) : List Char :=
  ((s.dropWhile pyWs).reverse.dropWhile pyWs).reverse

/-- One scanning step of Python `str.replace(pat, rep)`: at each position,
if `pat` starts here, emit `rep` and jump over the match, else keep the
character.  `fuel` bounds the number of steps; each step consumes at least
one character, so `s.length` fuel is always enough. -/
def replaceGo : Nat → List Char → List Char → List Char → List Char
  | 0, _, _, s => s
  | _ + 1, _, _, [] => []
  | fuel + 1, pat, rep, c :: cs =>
    if isStartOf pat (c :: cs) then
      rep ++ replaceGo fuel pat rep ((c :: cs).drop pat.length)
    else
      c :: replaceGo fuel pat rep cs

/-- Python `s.replace(pat, rep)` (all non-overlapping occurrences, left to
right).  Python treats an empty `pat` specially (it inserts `rep` at every
boundary); the program only ever replaces `"\x7bcode\x7d"` and `" "`, both
nonempty, so the guard just keeps the model total. -/
def pyreplace (s pat rep : List Char) : List Char :=
  if pat = [] then s else replaceGo s.length pat rep s

/-- JSON values as produced by `json.loads`.  Objects are Python dicts in
insertion order; numeric literals are kept as their source text (no claim
inspects a numeric value). -/
inductive Json where
  | null : Json
  | bool (b : Bool) : Json
  | num (lit : String) : Json
  | str (s : String) : Json
  | arr (elems : List Json) : Json
  | obj (fields : List (String × Json)) : Json

/-- Python dict assignment `d[k] = v`: update in place if the key exists
(keeping its position), else append the new binding. -/
def dictSet {α : Type} (d : List (String × α)) (k : String) (v : α) :
    List (String × α) :=
  if k ∈ d.map Prod.fst then
    d.map fun kv => if kv.1 = k then (k, v) else kv
  else
    d ++ [(k, v)]

/-- The whitespace skipped by Python's JSON scanner (`' ', '\t', '\n', '\r'`). -/
def jsonWs (c : Char) : Bool :=
  c == ' ' || c == '\t' || c == '\n' || c == '\r'

/-- Skip JSON whitespace. -/
def skipWs (s : List Char) : List Char := s.dropWhile jsonWs

/-- Hex digit value, as accepted in `\uXXXX` string escapes. -/
def hexDigit (c : Char) : Option Nat :=
  if '0' ≤ c && c ≤ '9' then some (c.toNat - 48)
  else if 'a' ≤ c && c ≤ 'f' then some (c.toNat - 87)
  else if 'A' ≤ c && c ≤ 'F' then some (c.toNat - 55)
  else none

/-- Value of a four-hex-digit escape. -/
def hex4 (a b c d : Char) : Option Nat := do
  let x ← hexDigit a
  let y ← hexDigit b
  let z ← hexDigit c
  let w ← hexDigit d
  pure (((x * 16 + y) * 16 + z) * 16 + w)

/-- Cons a char onto the string part of a string-parser result. -/
def strCons (c : Char) (r : Option (List Char × List Char)) :
    Option (List Char × List Char) :=
  r.map fun p => (c :: p.1, p.2)

/-- Body of a JSON string (after the opening quote), as in Python's strict
scanner: ends at `"`, recognises the standard escapes, rejects raw control
characters below `0x20` and malformed escapes.  A `\uXXXX` high surrogate
followed by a low surrogate combines into one character; a lone surrogate
(which Python would keep as an unpaired code unit, unrepresentable in
`Char`) becomes `U+FFFD` — no input in this development reaches that case. -/
def parseStrBody : Nat → List Char → Option (List Char × List Char)
  | 0, _ => none
  | _ + 1, [] => none
  | fuel + 1, c :: cs =>
    if c == '"' then some ([], cs)
    else if c == '\\' then
      match cs with
      | '"' :: cs2 => strCons '"' (parseStrBody fuel cs2)
      | '\\' :: cs2 => strCons '\\' (parseStrBody fuel cs2)
      | '/' :: cs2 => strCons '/' (parseStrBody fuel cs2)
      | 'b' :: cs2 => strCons '\x08' (parseStrBody fuel cs2)
      | 'f' :: cs2 => strCons '\x0c' (parseStrBody fuel cs2)
      | 'n' :: cs2 => strCons '\n' (parseStrBody fuel cs2)
      | 'r' :: cs2 => strCons '\r' (parseStrBody fuel cs2)
      | 't' :: cs2 => strCons '\t' (parseStrBody fuel cs2)
      | 'u' :: h1 :: h2 :: h3 :: h4 :: cs2 =>
        match hex4 h1 h2 h3 h4 with
        | none => none
        | some n =>
          if 0xD800 ≤ n && n ≤ 0xDBFF then
            match cs2 with
            | '\\' :: 'u' :: g1 :: g2 :: g3 :: g4 :: cs3 =>
              match hex4 g1 g2 g3 g4 with
              | none => none
              | some m =>
                if 0xDC00 ≤ m && m ≤ 0xDFFF then
                  strCons
                    (Char.ofNat (0x10000 + (n - 0xD800) * 0x400 + (m - 0xDC00)))
                    (parseStrBody fuel cs3)
                else strCons '\uFFFD' (parseStrBody fuel cs2)
            | _ => strCons '\uFFFD' (parseStrBody fuel cs2)
          else if 0xDC00 ≤ n && n ≤ 0xDFFF then
            strCons '\uFFFD' (parseStrBody fuel cs2)
          else strCons (Char.ofNat n) (parseStrBody fuel cs2)
      | _ => none
    else if c.toNat < 0x20 then none
    else strCons c (parseStrBody fuel cs)

/-- Is `c` a decimal digit. -/
def isDigitCh (c : Char) : Bool := '0' ≤ c && c ≤ '9'

/-- Integer part of a JSON number: `0` or a nonzero digit followed by
digits (leading zeros rejected, as in Python's `NUMBER_RE`). -/
def parseIntPart : List Char → Option (List Char × List Char)
  | [] => none
  | c :: rest =>
    if c == '0' then some (['0'], rest)
    else if '1' ≤ c && c ≤ '9' then
      some (c :: rest.takeWhile isDigitCh, rest.dropWhile isDigitCh)
    else none

/-- Optional fraction part `.digits` of a JSON number. -/
def parseFracPart : List Char → Option (List Char × List Char)
  | '.' :: rest =>
    if (rest.takeWhile isDigitCh).isEmpty then none
    else some ('.' :: rest.takeWhile isDigitCh, rest.dropWhile isDigitCh)
  | s => some ([], s)

/-- Optional exponent part `[eE][+-]?digits` of a JSON number. -/
def parseExpPart : List Char → Option (List Char × List Char)
  | c :: rest =>
    if c == 'e' || c == 'E' then
      match rest with
      | s :: rest2 =>
        if s == '+' || s == '-' then
          if (rest2.takeWhile isDigitCh).isEmpty then none
          else some (c :: s :: rest2.takeWhile isDigitCh, rest2.dropWhile isDigitCh)
        else
          if (rest.takeWhile isDigitCh).isEmpty then none
          else some (c :: rest.takeWhile isDigitCh, rest.dropWhile isDigitCh)
      | [] => none
    else some ([], c :: rest)
  | [] => some ([], [])

/-- A JSON numeric literal `-?(0|[1-9][0-9]*)(\.[0-9]+)?([eE][+-]?[0-9]+)?`,
returned as its source text. -/
def parseNumber (s : List Char) : Option (List Char × List Char) :=
  match s with
  | '-' :: rest => do
    let (i, r1) ← parseIntPart rest
    let (f, r2) ← parseFracPart r1
    let (e, r3) ← parseExpPart r2
    pure ('-' :: (i ++ f ++ e), r3)
  | _ => do
    let (i, r1) ← parseIntPart s
    let (f, r2) ← parseFracPart r1
    let (e, r3) ← parseExpPart r2
    pure (i ++ f ++ e, r3)

mutual

/-- One JSON value starting at the head of `s` (no leading whitespace),
following Python's scanner: string, object, array, the literals
`true`/`false`/`null` and the non-standard constants `NaN`, `Infinity`,
`-Infinity` that `json.loads` accepts by default, then a number. -/
def parseVal : Nat → List Char → Option (Json × List Char)
  | 0, _ => none
  | fuel + 1, s =>
    match s with
    | [] => none
    | c :: cs =>
      if c == '"' then
        (parseStrBody fuel cs).map fun p => (Json.str (String.mk p.1), p.2)
      else if c == '\x7b' then parseObjBody fuel (skipWs cs)
      else if c == '[' then parseArrBody fuel (skipWs cs)
      else if isStartOf "true".toList s then some (Json.bool true, s.drop 4)
      else if isStartOf "false".toList s then some (Json.bool false, s.drop 5)
      else if isStartOf "null".toList s then some (Json.null, s.drop 4)
      else if isStartOf "NaN".toList s then some (Json.num "NaN", s.drop 3)
      else if isStartOf "Infinity".toList s then
        some (Json.num "Infinity", s.drop 8)
      else if isStartOf "-Infinity".toList s then
        some (Json.num "-Infinity", s.drop 9)
      else
        (parseNumber s).map fun p => (Json.num (String.mk p.1), p.2)

/-- Object body after the opening brace and whitespace: empty object or a
member list. -/
def parseObjBody : Nat → List Char → Option (Json × List Char)
  | 0, _ => none
  | fuel + 1, s =>
    match s with
    | '\x7d' :: rest => some (Json.obj [], rest)
    | _ => parseMembers fuel s []

/-- Members of a JSON object: `"key" : value` separated by commas, built
into a Python dict (duplicate keys overwrite, keeping position). -/
def parseMembers : Nat → List Char → List (String × Json) →
    Option (Json × List Char)
  | 0, _, _ => none
  | fuel + 1, s, acc =>
    match s with
    | '"' :: cs =>
      match parseStrBody fuel cs with
      | none => none
      | some (key, r1) =>
        match skipWs r1 with
        | ':' :: r3 =>
          match parseVal fuel (skipWs r3) with
          | none => none
          | some (v, r4) =>
            let acc2 := dictSet acc (String.mk key) v
            match skipWs r4 with
            | '\x7d' :: r6 => some (Json.obj acc2, r6)
            | ',' :: r6 => parseMembers fuel (skipWs r6) acc2
            | _ => none
        | _ => none
    | _ => none

/-- Array body after the opening bracket and whitespace: empty array or an
item list. -/
def parseArrBody : Nat → List Char → Option (Json × List Char)
  | 0, _ => none
  | fuel + 1, s =>
    match s with
    | ']' :: rest => some (Json.arr [], rest)
    | _ => parseItems fuel s []

/-- Items of a JSON array, separated by commas. -/
def parseItems : Nat → List Char → List Json → Option (Json × List Char)
  | 0, _, _ => none
  | fuel + 1, s, acc =>
    match parseVal fuel s with
    | none => none
    | some (v, r1) =>
      match skipWs r1 with
      | ']' :: r3 => some (Json.arr (acc ++ [v]), r3)
      | ',' :: r3 => parseItems fuel (skipWs r3) (acc ++ [v])
      | _ => none

end

/-- Python `json.loads`: parse one JSON document, requiring only
whitespace after it.  `none` models a raised `JSONDecodeError`.

The fuel `3 * s.length + 3` never runs out, so `none` is a genuine parse
failure: every recursive call in the parser decreases the fuel by exactly
one and operates on a suffix of the input, and the only calls that
consume no character are `parseObjBody` to `parseMembers`, `parseArrBody`
to `parseItems`, and `parseItems` to `parseVal` — every call out of
`parseVal`, `parseMembers` (after a key) and `parseStrBody` consumes at
least one character first.  The longest character-free run of calls is
therefore `parseArrBody` to `parseItems` to `parseVal`, of length two, so
along any chain of nested calls at least one character is consumed per
three units of fuel, bounding the chain length by `3 * s.length + 2`. -/
def json_loads (s : List Char) : Option Json :=
  match parseVal (3 * s.length + 3) (skipWs s) with
  | some (v, rest) => if skipWs rest = [] then some v else none
  | none => none

/-- The fence-opening token of the regex `r"^```json|```$"`. -/
def fenceJson : List Char := "```json".toList

/-- The fence-closing token of the regex `r"^```json|```$"`. -/
def fenceEnd : List Char := "```".toList

/-- The `$` anchor with `re.MULTILINE`: end of input or just before a newline. -/
def atLineEnd : List Char → Bool
  | [] => true
  | c :: _ => c == '\n'

/-- One match attempt of `re.sub(r"^```json|```$", "", _, flags=re.MULTILINE)`
at the current position: the first alternative needs a line start (`^`),
the second needs a line end (`$`) after the backticks.  Returns the input
after the match when one of the alternatives matches. -/
def fenceMatch (atLineStart : Bool) (s : List Char) : Option (List Char) :=
  if atLineStart && isStartOf fenceJson s then some (s.drop 7)
  else if isStartOf fenceEnd s && atLineEnd (s.drop 3) then some (s.drop 3)
  else none

/-- The scan of `re.sub` with the fence pattern: replace every
non-overlapping match with the empty string, left to right.  Both
alternatives end in a non-newline character, so the position right after a
match is never a line start.  Each step consumes at least one character,
so `s.length` fuel is always enough. -/
def subFences : Nat → Bool → List Char → List Char
  | 0, _, s => s
  | fuel + 1, atLineStart, s =>
    match fenceMatch atLineStart s with
    | some rest => subFences fuel false rest
    | none =>
      match s with
      | [] => []
      | c :: cs => c :: subFences fuel (c == '\n') cs

/-- Line 52 of `cli_analyzer.py`:
`clean_text = re.sub(r"^```json|```$", "", text_out.strip(), flags=re.MULTILINE).strip()`. -/
def clean_text_of (text_out : List Char) : List Char :=
  pstrip (subFences (pstrip text_out).length true (pstrip text_out))

/-- Lines 52-60 of `cli_analyzer.py` (the Response Normalizer): strip the
Markdown fences, try `json.loads`, and on any parse failure fall back to
the synthetic single-issue envelope.  The function is total: the Python
`except Exception` catch-all means this code never raises. -/
def normalize_reply (text_out : List Char) (pillar : String) : Json :=
  let clean := clean_text_of text_out
  match json_loads clean with
  | some parsed => parsed
  | none =>
    Json.obj [("issues", Json.arr [Json.obj
      [("description", Json.str (String.mk clean)),
       ("severity", Json.str "UNKNOWN"),
       ("recommendation", Json.str "Check manually"),
       ("pillar", Json.str pillar)]])]

/-- Python exceptions that can propagate through this program.  The text
carried by each constructor stands in for `str(e)`; the exact CPython
message wording is not modelled and no claim depends on it. -/
inductive PyErr where
  | fileNotFound (path : String) : PyErr
  | jsonDecode (msg : String) : PyErr
  | typeErr (msg : String) : PyErr
  | attributeErr (msg : String) : PyErr
  | keyErr (msg : String) : PyErr
  | transport (msg : String) : PyErr
deriving DecidableEq

/-- Python `str(e)`, as used in the `{"error": str(e)}` outcomes. -/
def pyStr : PyErr → String
  | .fileNotFound p => "[Errno 2] No such file or directory: " ++ p
  | .jsonDecode m => m
  | .typeErr m => m
  | .attributeErr m => m
  | .keyErr m => m
  | .transport m => m

/-- Line 16 of `cli_analyzer.py`:
`filename = pillar.lower().replace(" ", "_") + ".txt"` (the pillar names
are ASCII, where `str.lower` is `Char.toLower`). -/
def prompt_filename (pillar : String) : String :=
  String.mk (pyreplace (pillar.toList.map Char.toLower) " ".toList "_".toList)
    ++ ".txt"

/-- Lines 15-20 of `cli_analyzer.py` (the Prompt Loader).  The `prompts`
directory is a parameter mapping a file name to its contents; a missing
file makes `open` raise `FileNotFoundError`, modelled as `Except.error`.
`template.replace("{code}", code)` substitutes at every occurrence. -/
def load_prompt (prompts : String → Option (List Char)) (pillar : String)
    (code : List Char) : Except PyErr (List Char) :=
  match prompts (prompt_filename pillar) with
  | none =>
    Except.error (PyErr.fileNotFound ("prompts/" ++ prompt_filename pillar))
  | some template => Except.ok (pyreplace template "{code}".toList code)

/-- The comparison `c["type"] == "text"` of line 49: Python `==` against a
string literal is true exactly for the equal string and false for every
other JSON value, never an error. -/
def isTextTag : Json → Bool
  | Json.str s => s == "text"
  | _ => false

/-- The text blocks of line 49:
`"".flatten([c["text"] for c in ... if c["type"] == "text"])`.  Subscripting
a non-dict raises `TypeError`, a dict without the key raises `KeyError`,
joining a non-string raises `TypeError` (the distinct CPython error
messages are collapsed into one schematic message each). -/
def joinBlocks : List Json → Except PyErr (List Char)
  | [] => Except.ok []
  | b :: bs =>
    match b with
    | Json.obj f =>
      match f.lookup "type" with
      | none => Except.error (PyErr.keyErr "type")
      | some t =>
        if isTextTag t then
          match f.lookup "text" with
          | none => Except.error (PyErr.keyErr "text")
          | some (Json.str s) => do
            let rest ← joinBlocks bs
            pure (s.toList ++ rest)
          | some _ =>
            Except.error (PyErr.typeErr "sequence item: expected str instance")
        else joinBlocks bs
    | _ => Except.error (PyErr.typeErr "indices must be str")

/-- Line 49 of `cli_analyzer.py`: `data.get("content", [])` then the join
above.  `.get` on a non-dict raises `AttributeError`; iterating a
non-list `content` value raises at the first block subscript (collapsed
into one `TypeError`). -/
def extract_text (data : Json) : Except PyErr (List Char) :=
  match data with
  | Json.obj fields =>
    match fields.lookup "content" with
    | none => Except.ok []
    | some (Json.arr blocks) => joinBlocks blocks
    | some _ => Except.error (PyErr.typeErr "content is not a list")
  | _ => Except.error (PyErr.attributeErr "object has no attribute get")

/-- Lines 22-60 of `cli_analyzer.py` (the Analysis Invoker).  The fixed
request envelope (anthropic version marker, `max_tokens`, the single user
message) is folded into the `client` parameter, which maps the prompt —
the only varying part of the request — to either a raw response body
(`Except.ok`) or a transport-level exception (`Except.error`).
`Except.error` anywhere models an exception propagating out of
`analyze_with_bedrock` to its caller: nothing inside the function catches
the `FileNotFoundError` of `load_prompt`, a client failure, or a
`json.loads` failure on the response body.  Only the final `normalize`
step (lines 55-58) has its own catch-all. -/
def analyze_with_bedrock (prompts : String → Option (List Char))
    (client : List Char → Except PyErr (List Char))
    (text : List Char) (pillar : String) : Except PyErr Json := do
  let prompt ← load_prompt prompts pillar text
  let raw ← client prompt
  let data ←
    match json_loads raw with
    | some d => Except.ok d
    | none => Except.error (PyErr.jsonDecode "Expecting value")
  let text_out ← extract_text data
  pure (normalize_reply text_out pillar)

/-- The slicing loop of lines 9-13, one iteration per recursive step:
`text[i:i+max_chars]` then advance by `max_chars`.  Fuel bounds the number
of iterations; with `max_chars ≥ 1` each iteration drops at least one
character, so `text.length` fuel is always enough. -/
def chunk_text_go : Nat → List Char → Nat → List (List Char)
  | 0, _, _ => []
  | _ + 1, [], _ => []
  | fuel + 1, text, max_chars =>
    text.take max_chars :: chunk_text_go fuel (text.drop max_chars) max_chars

/-- Lines 9-13 of `cli_analyzer.py`: `chunk_text(text, max_chars)` slices
`text` into consecutive windows of `max_chars` characters.  Python's
`range` raises on step 0; the program only ever calls this with the
default `max_chars=2000`, and the guard keeps the model total. -/
def chunk_text (text : List Char) (max_chars : Nat) : List (List Char) :=
  if max_chars = 0 then [] else chunk_text_go text.length text max_chars

/-- A per-unit outcome as stored in the report: the Invoker's parsed value
on success, or the `{"error": str(e)}` object the orchestrator builds when
it catches the exception (lines 141-143 and 149-151). -/
def outcome : Except PyErr Json → Json
  | Except.ok j => j
  | Except.error e => Json.obj [("error", Json.str (pyStr e))]

/-- Lines 132-151 of `cli_analyzer.py`, the per-(file, pillar) body: if the
content exceeds 2000 characters, chunk it and invoke once per chunk, a
per-chunk `except` turning each failure into `{"error": str(e)}`;
otherwise invoke once on the whole content, the outer `except` producing
the same single-element error shape. -/
def analyze_file_pillar (prompts : String → Option (List Char))
    (client : List Char → Except PyErr (List Char))
    (content : List Char) (pillar : String) : List Json :=
  if 2000 < content.length then
    (chunk_text content 2000).map fun chunk =>
      outcome (analyze_with_bedrock prompts client chunk pillar)
  else
    [outcome (analyze_with_bedrock prompts client content pillar)]

/-- Lines 101-108 of `cli_analyzer.py`: the six Well-Architected pillars. -/
def pillars : List String :=
  ["Operational Excellence", "Security", "Reliability",
   "Performance Efficiency", "Cost Optimization", "Sustainability"]

/-- Lines 128-151: the `file_results` dict, one entry per pillar in order.
The pillar names are distinct, so the insertion-ordered dict is exactly
this association list. -/
def analyze_file (prompts : String → Option (List Char))
    (client : List Char → Except PyErr (List Char))
    (content : List Char) : List (String × List Json) :=
  pillars.map fun pillar =>
    (pillar, analyze_file_pillar prompts client content pillar)

/-- One file yielded by the `os.walk` loop: its base name (`file` in the
code — the path is not part of the report key) and the result of reading
it (`Except.error` when `open`/`read` raises, line 121-126). -/
structure WalkFile where
  name : String
  content : Except PyErr (List Char)

/-- Line 117: `file.endswith(".tf")`. -/
def tfName (name : String) : Bool :=
  isStartOf ".tf".toList.reverse name.toList.reverse

/-- Lines 115-153, body of the walk loop for one file: skip non-`.tf`
names, skip files whose read raised (`continue`), otherwise store the
per-pillar results under the base file name (`results[file] = ...`). -/
def walk_step (prompts : String → Option (List Char))
    (client : List Char → Except PyErr (List Char))
    (results : List (String × List (String × List Json))) (wf : WalkFile) :
    List (String × List (String × List Json)) :=
  if tfName wf.name then
    match wf.content with
    | Except.ok content =>
      dictSet results wf.name (analyze_file prompts client content)
    | Except.error _ => results
  else results

/-- Lines 99-153 of `main`: fold the walk sequence into the `results`
dict, starting from the empty dict. -/
def run_analysis (prompts : String → Option (List Char))
    (client : List Char → Except PyErr (List Char))
    (files : List WalkFile) : List (String × List (String × List Json)) :=
  files.foldl (walk_step prompts client) []

/-- The entries of the report stored under key `n`. -/
def filterKey {α : Type} (d : List (String × α)) (n : String) :
    List (String × α) :=
  d.filter fun kv => kv.1 == n

/-- A prompt directory with no template files (concrete scenario input). -/
def noPrompts : String → Option (List Char) := fun _ => none

/-- A client returning a well-formed body with no content blocks
(concrete scenario input). -/
def stubClient : List Char → Except PyErr (List Char) :=
  fun _ => Except.ok "\x7b\"content\":[]\x7d".toList

/-- A prompt directory holding one minimal template, for `Security` only
(concrete scenario input). -/
def onePromptSecurity : String → Option (List Char) :=
  fun n => if n = "security.txt" then some "\x7bcode\x7d".toList else none

/-- A client that always fails at transport level (concrete scenario
input): every call raises the embedded botocore connection error. -/
def failClient : List Char → Except PyErr (List Char) :=
  fun _ => Except.error (PyErr.transport "Could not connect to the endpoint URL")

/-- `chunk_text_go` on the empty text is empty, whatever the fuel. -/
theorem chunk_text_go_nil (fuel m : Nat) : chunk_text_go fuel [] m = [] := by
  cases fuel <;> rfl

/-- Any fuel at least the text length gives the same chunk list. -/
theorem chunk_text_go_fuel :
    ∀ f1 f2 (text : List Char) (m : Nat), m ≠ 0 →
      text.length ≤ f1 → text.length ≤ f2 →
      chunk_text_go f1 text m = chunk_text_go f2 text m := by
  intro f1
  induction f1 with
  | zero =>
    intro f2 text m _ h1 _
    have h : text = [] := List.eq_nil_of_length_eq_zero (Nat.le_zero.mp h1)
    subst h
    rw [chunk_text_go_nil, chunk_text_go_nil]
  | succ f ih =>
    intro f2 text m hm h1 h2
    cases text with
    | nil => rw [chunk_text_go_nil, chunk_text_go_nil]
    | cons c cs =>
      cases f2 with
      | zero => simp at h2
      | succ g =>
        show (c :: cs).take m :: chunk_text_go f ((c :: cs).drop m) m
            = (c :: cs).take m :: chunk_text_go g ((c :: cs).drop m) m
        have hd : ((c :: cs).drop m).length = (c :: cs).length - m := by
          simp
        congr 1
        apply ih g _ m hm
        · simp at h1 ⊢; omega
        · simp at h2 ⊢; omega

/-- Unfolding `chunk_text` one slice at a time. -/
theorem chunk_text_step (text : List Char) (m : Nat) (hm : m ≠ 0)
    (ht : text ≠ []) :
    chunk_text text m = text.take m :: chunk_text (text.drop m) m := by
  unfold chunk_text
  rw [if_neg hm, if_neg hm]
  cases text with
  | nil => exact absurd rfl ht
  | cons c cs =>
    show (c :: cs).take m :: chunk_text_go cs.length ((c :: cs).drop m) m
        = (c :: cs).take m :: chunk_text_go ((c :: cs).drop m).length ((c :: cs).drop m) m
    congr 1
    apply chunk_text_go_fuel _ _ _ _ hm
    · simp; omega
    · exact le_rfl

/-- Concatenating the chunks restores the text. -/
theorem chunk_text_go_join :
    ∀ (fuel : Nat) (text : List Char) (m : Nat), m ≠ 0 → text.length ≤ fuel →
      (chunk_text_go fuel text m).flatten = text := by
  intro fuel
  induction fuel with
  | zero =>
    intro text m _ h1
    have h : text = [] := List.eq_nil_of_length_eq_zero (Nat.le_zero.mp h1)
    subst h
    rfl
  | succ f ih =>
    intro text m hm h1
    cases text with
    | nil => rw [chunk_text_go_nil]; rfl
    | cons c cs =>
      show ((c :: cs).take m :: chunk_text_go f ((c :: cs).drop m) m).flatten
          = c :: cs
      rw [List.flatten_cons, ih ((c :: cs).drop m) m hm (by simp at h1 ⊢; omega)]
      exact List.take_append_drop m (c :: cs)

/-- Every chunk has at most `m` characters. -/
theorem chunk_text_go_le :
    ∀ (fuel : Nat) (text : List Char) (m : Nat) (c : List Char),
      c ∈ chunk_text_go fuel text m → c.length ≤ m := by
  intro fuel
  induction fuel with
  | zero => intro text m c hc; simp [chunk_text_go] at hc
  | succ f ih =>
    intro text m c hc
    cases text with
    | nil => rw [chunk_text_go_nil] at hc; simp at hc
    | cons a cs =>
      rcases List.mem_cons.mp hc with h | h
      · subst h; simp
      · exact ih _ _ _ h

/-- The number of chunks is `⌈text.length / m⌉`, written `(len + m - 1) / m`. -/
theorem chunk_text_go_length :
    ∀ (fuel : Nat) (text : List Char) (m : Nat), m ≠ 0 → text.length ≤ fuel →
      (chunk_text_go fuel text m).length = (text.length + m - 1) / m := by
  intro fuel
  induction fuel with
  | zero =>
    intro text m hm h1
    have h : text = [] := List.eq_nil_of_length_eq_zero (Nat.le_zero.mp h1)
    subst h
    rw [chunk_text_go_nil]
    simp [Nat.div_eq_of_lt (by omega : m - 1 < m)]
  | succ f ih =>
    intro text m hm h1
    cases text with
    | nil =>
      rw [chunk_text_go_nil]
      simp [Nat.div_eq_of_lt (by omega : m - 1 < m)]
    | cons c cs =>
      show (((c :: cs).take m :: chunk_text_go f ((c :: cs).drop m) m)).length
          = ((c :: cs).length + m - 1) / m
      rw [List.length_cons, ih ((c :: cs).drop m) m hm (by simp at h1 ⊢; omega)]
      simp only [List.length_drop]
      rcases le_or_lt (c :: cs).length m with hle | hlt
      · have h0 : (c :: cs).length - m = 0 := by omega
        rw [h0]
        have hz : (0 + m - 1) / m = 0 := Nat.div_eq_of_lt (by omega)
        rw [hz]
        have hlen : 0 < (c :: cs).length := by simp
        rw [Nat.div_eq_of_lt_le (by omega : 1 * m ≤ (c :: cs).length + m - 1)
          (by omega : (c :: cs).length + m - 1 < (1 + 1) * m)]
      · have e1 : (c :: cs).length - m + m - 1 = (c :: cs).length - 1 := by omega
        have e2 : (c :: cs).length + m - 1 = ((c :: cs).length - 1) + m := by omega
        rw [e1, e2, Nat.add_div_right _ (by omega : 0 < m)]

/-- Claim C1: for every text `T` and positive chunk size `S`, `chunk_text`
returns contiguous, non-overlapping substrings in left-to-right order —
their concatenation is exactly `T` — each chunk has length at most `S`,
the number of chunks is `⌈len(T)/S⌉`, and empty text gives the empty
sequence. -/
theorem chunker_spec (T : List Char) (S : Nat) (hS : 0 < S) :
    (chunk_text T S).flatten = T ∧
    (∀ c ∈ chunk_text T S, c.length ≤ S) ∧
    (chunk_text T S).length = (T.length + S - 1) / S ∧
    (T = [] → chunk_text T S = []) := by
  have hS' : S ≠ 0 := by omega
  unfold chunk_text
  rw [if_neg hS']
  exact ⟨chunk_text_go_join _ _ _ hS' le_rfl,
    fun c hc => chunk_text_go_le _ _ _ _ hc,
    chunk_text_go_length _ _ _ hS' le_rfl,
    fun h => by subst h; rfl⟩

/-- Witness for C1 at `T = "hello world"` (11 characters) and `S = 4`:
the hypothesis `0 < 4` holds and the concatenation and chunk-count
conclusions follow by applying `chunker_spec` there. -/
theorem chunker_spec_witness :
    0 < 4 ∧
    (chunk_text "hello world".toList 4).flatten = "hello world".toList ∧
    (chunk_text "hello world".toList 4).length
      = ("hello world".toList.length + 4 - 1) / 4 :=
  ⟨by decide, (chunker_spec "hello world".toList 4 (by decide)).1,
    (chunker_spec "hello world".toList 4 (by decide)).2.2.1⟩

/-- Claim C2: for every raw model reply and category, when the
fence-stripped text does not parse as JSON the Normalizer returns exactly
the single-issue envelope with the cleaned raw text as description,
severity `UNKNOWN`, recommendation `Check manually` and the category as
pillar.  `normalize_reply` is a total function, which is the embedded form
of "the Normalizer never raises — it always returns a well-formed
envelope": the `except Exception` catch-all of lines 55-58 routes every
parse failure into this deterministic fallback value. -/
theorem normalize_fallback (text_out : List Char) (pillar : String)
    (h : json_loads (clean_text_of text_out) = none) :
    normalize_reply text_out pillar
      = Json.obj [("issues", Json.arr [Json.obj
          [("description", Json.str (String.mk (clean_text_of text_out))),
           ("severity", Json.str "UNKNOWN"),
           ("recommendation", Json.str "Check manually"),
           ("pillar", Json.str pillar)]])] := by
  simp only [normalize_reply, h]

/-- Witness for C2 at the spec's own example: `"not json at all"` with
category `"Security"` fails to parse and produces exactly the documented
envelope (the cleaned text here equals the raw text). -/
theorem normalize_fallback_witness :
    json_loads (clean_text_of "not json at all".toList) = none ∧
    normalize_reply "not json at all".toList "Security"
      = Json.obj [("issues", Json.arr [Json.obj
          [("description", Json.str "not json at all"),
           ("severity", Json.str "UNKNOWN"),
           ("recommendation", Json.str "Check manually"),
           ("pillar", Json.str "Security")]])] :=
  ⟨rfl, (normalize_fallback "not json at all".toList "Security" rfl).trans rfl⟩

/-- Claim C3: the Normalizer strips the ```json fence markers line-wise
(`clean_text_of` embeds the `re.MULTILINE` substitution of line 52), and
whenever the cleaned text parses as JSON the parsed structure is returned
verbatim. -/
theorem normalize_parsed (text_out : List Char) (pillar : String) (v : Json)
    (h : json_loads (clean_text_of text_out) = some v) :
    normalize_reply text_out pillar = v := by
  simp only [normalize_reply, h]

/-- Witness for C3 at the spec's own example: the fenced reply
`"```json\n{"issues":[]}\n```"` cleans to `{"issues":[]}`, parses, and the
Normalizer returns the parsed object `{"issues": []}`. -/
theorem normalize_parsed_witness :
    json_loads (clean_text_of "```json\n\x7b\"issues\":[]\x7d\n```".toList)
      = some (Json.obj [("issues", Json.arr [])]) ∧
    normalize_reply "```json\n\x7b\"issues\":[]\x7d\n```".toList "Security"
      = Json.obj [("issues", Json.arr [])] :=
  ⟨rfl, normalize_parsed "```json\n\x7b\"issues\":[]\x7d\n```".toList
    "Security" (Json.obj [("issues", Json.arr [])]) rfl⟩

/-- A pattern starts at the front of itself plus anything. -/
theorem isStartOf_append_self :
    ∀ (pat r : List Char), isStartOf pat (pat ++ r) = true := by
  intro pat
  induction pat with
  | nil => intro r; rfl
  | cons p ps ih => intro r; simp [isStartOf, ih]

/-- A string with no occurrence of the pattern is unchanged by the
replace scan. -/
theorem replaceGo_no_occ :
    ∀ (fuel : Nat) (pat rep s : List Char),
      occursIn pat s = false → replaceGo fuel pat rep s = s := by
  intro fuel
  induction fuel with
  | zero => intro pat rep s _; rfl
  | succ f ih =>
    intro pat rep s h
    cases s with
    | nil => rfl
    | cons c cs =>
      simp only [occursIn, Bool.or_eq_false_iff] at h
      simp only [replaceGo, h.1, Bool.false_eq_true, if_false]
      rw [ih pat rep cs h.2]

/-- `s.replace(pat, rep)` when `pat` occurs exactly once in
`s = l ++ pat ++ r`: no match starts inside `l` (also not one spanning
into the designated occurrence) and none occurs in `r`; the scan then
rewrites exactly the designated occurrence. -/
theorem replaceGo_single :
    ∀ (l : List Char) (fuel : Nat) (p : Char) (ps rep r : List Char),
      (∀ t ∈ suffixes l, t ≠ [] →
        isStartOf (p :: ps) (t ++ (p :: ps) ++ r) = false) →
      occursIn (p :: ps) r = false →
      (l ++ (p :: ps) ++ r).length ≤ fuel →
      replaceGo fuel (p :: ps) rep (l ++ (p :: ps) ++ r) = l ++ rep ++ r := by
  intro l
  induction l with
  | nil =>
    intro fuel p ps rep r _ hr hf
    cases fuel with
    | zero => simp at hf
    | succ f =>
      simp only [List.nil_append] at hf ⊢
      show (if isStartOf (p :: ps) ((p :: ps) ++ r) = true then
          rep ++ replaceGo f (p :: ps) rep (((p :: ps) ++ r).drop (p :: ps).length)
        else p :: replaceGo f (p :: ps) rep (ps ++ r)) = rep ++ r
      rw [isStartOf_append_self, if_pos rfl, List.drop_left,
        replaceGo_no_occ f _ _ _ hr]
  | cons c l2 ih =>
    intro fuel p ps rep r hb hr hf
    cases fuel with
    | zero => simp at hf
    | succ f =>
      have h0 : isStartOf (p :: ps) ((c :: l2) ++ (p :: ps) ++ r) = false := by
        apply hb (c :: l2)
        · simp [suffixes]
        · simp
      have hstep : (c :: l2) ++ (p :: ps) ++ r = c :: (l2 ++ (p :: ps) ++ r) := by
        simp
      rw [hstep] at h0 hf ⊢
      simp only [replaceGo, h0, Bool.false_eq_true, if_false]
      have hb2 : ∀ t ∈ suffixes l2, t ≠ [] →
          isStartOf (p :: ps) (t ++ (p :: ps) ++ r) = false := by
        intro t ht hne
        exact hb t (by simp [suffixes]; right; exact ht) hne
      rw [ih f p ps rep r hb2 hr (by simp at hf ⊢; omega)]
      simp

/-- Counterexample to claim C7 as stated: the claim says the subject text
is substituted into "a single designated placeholder occurrence", but
line 20 is `template.replace("{code}", code)`, and Python `str.replace`
substitutes at every occurrence.  With the template
`A{code}B{code}C` and subject `X`, the Prompt Loader returns `AXBXC`,
in which both occurrences were replaced — it equals neither result of a
single-occurrence substitution (`AXB{code}C` or `A{code}BXC`). -/
theorem load_prompt_counterexample :
    load_prompt
        (fun n => if n = "security.txt"
          then some "A\x7bcode\x7dB\x7bcode\x7dC".toList else none)
        "Security" "X".toList
      = Except.ok "AXBXC".toList ∧
    "AXBXC".toList ≠ "AXB\x7bcode\x7dC".toList ∧
    "AXBXC".toList ≠ "A\x7bcode\x7dBXC".toList :=
  ⟨rfl, by decide, by decide⟩

/-- Claim C7, amended: the Prompt Loader resolves the template by the
normalized category name (lowercased, spaces replaced by underscores,
plus `.txt` under `prompts/`), produces the prompt by substituting the
subject text for EVERY occurrence of the placeholder `{code}` — in
particular, when the template contains the placeholder exactly once
(`l ++ "{code}" ++ r` with no match starting in `l` and no occurrence in
`r`), the result is the template with that one occurrence replaced — and
fails with a `FileNotFoundError` when no template file exists for the
category. -/
theorem load_prompt_amended (prompts : String → Option (List Char))
    (pillar : String) (code l r : List Char)
    (hstore : prompts (prompt_filename pillar)
      = some (l ++ "\x7bcode\x7d".toList ++ r))
    (hl : ∀ t ∈ suffixes l, t ≠ [] →
      isStartOf "\x7bcode\x7d".toList (t ++ "\x7bcode\x7d".toList ++ r) = false)
    (hr : occursIn "\x7bcode\x7d".toList r = false) :
    load_prompt prompts pillar code = Except.ok (l ++ code ++ r) ∧
    (∀ prompts2 : String → Option (List Char),
      prompts2 (prompt_filename pillar) = none →
      load_prompt prompts2 pillar code
        = Except.error
            (PyErr.fileNotFound ("prompts/" ++ prompt_filename pillar))) := by
  constructor
  · have hred : load_prompt prompts pillar code
        = Except.ok
            (pyreplace (l ++ "\x7bcode\x7d".toList ++ r) "\x7bcode\x7d".toList
              code) := by
      unfold load_prompt
      rw [hstore]
    rw [hred]
    unfold pyreplace
    rw [if_neg (by decide : ¬("\x7bcode\x7d".toList = ([] : List Char)))]
    exact congrArg Except.ok
      (replaceGo_single l _ '\x7b' "code\x7d".toList code r hl hr le_rfl)
  · intro prompts2 h2
    unfold load_prompt
    rw [h2]

/-- Witness for the amended C7: a concrete store holding the template
`Review: {code} end` for `Security`; the loader returns the template with
the single placeholder occurrence replaced by the subject text. -/
theorem load_prompt_amended_witness :
    load_prompt
        (fun n => if n = "security.txt"
          then some "Review: \x7bcode\x7d end".toList else none)
        "Security" "RESOURCE".toList
      = Except.ok ("Review: ".toList ++ "RESOURCE".toList ++ " end".toList) :=
  (load_prompt_amended
    (fun n => if n = "security.txt"
      then some "Review: \x7bcode\x7d end".toList else none)
    "Security" "RESOURCE".toList "Review: ".toList " end".toList
    rfl (by decide) (by decide)).1


/-- When the prompt store has no template for the pillar, the Invoker
propagates the `FileNotFoundError` of `load_prompt` to its caller. -/
theorem analyze_with_bedrock_missing (prompts : String → Option (List Char))
    (client : List Char → Except PyErr (List Char))
    (text : List Char) (pillar : String)
    (hmiss : prompts (prompt_filename pillar) = none) :
    analyze_with_bedrock prompts client text pillar
      = Except.error
          (PyErr.fileNotFound ("prompts/" ++ prompt_filename pillar)) := by
  have hload : load_prompt prompts pillar text
      = Except.error
          (PyErr.fileNotFound ("prompts/" ++ prompt_filename pillar)) := by
    unfold load_prompt
    rw [hmiss]
  unfold analyze_with_bedrock
  rw [hload]
  rfl

/-- Chunking a text longer than the chunk size yields a nonempty list. -/
theorem chunk_text_ne_nil (text : List Char) (m : Nat) (hm : m ≠ 0)
    (ht : text ≠ []) : chunk_text text m ≠ [] := by
  rw [chunk_text_step text m hm ht]
  simp

/-- Counterexample to claim C4 as stated: the claim says the Analysis
Invoker returns an error outcome "without raising to its caller", with
the missing template "not an exception propagated out of the Invoker".
In the embedding `Except.error` is an exception propagating out of
`analyze_with_bedrock` to its caller, and `Except.ok` is a normal return:
with no template for `Security`, the Invoker's result IS the propagated
`FileNotFoundError`, not an `Except.ok` carrying an error-outcome value —
nothing inside `analyze_with_bedrock` (lines 22-60) catches it; the
`try/except` that converts it into `{"error": str(e)}` sits in `main`
(lines 130-151). -/
theorem invoker_missing_template_counterexample :
    analyze_with_bedrock noPrompts stubClient "text".toList "Security"
      = Except.error (PyErr.fileNotFound "prompts/security.txt") := rfl

/-- Claim C4, amended: for every text unit and category with no existing
prompt template, the Invoker raises the NotFound error to its caller,
and the Orchestrator catches it at the call site, recording the
`{"error": str(e)}` outcome for that (text unit, category) pair — every
outcome the per-pillar step produces is that error object, the outcome
list is never empty, and nothing propagates further. -/
theorem invoker_missing_template_handled
    (prompts : String → Option (List Char))
    (client : List Char → Except PyErr (List Char))
    (text : List Char) (pillar : String)
    (hmiss : prompts (prompt_filename pillar) = none) :
    analyze_with_bedrock prompts client text pillar
      = Except.error
          (PyErr.fileNotFound ("prompts/" ++ prompt_filename pillar)) ∧
    (∀ out ∈ analyze_file_pillar prompts client text pillar,
      out = Json.obj [("error",
        Json.str (pyStr
          (PyErr.fileNotFound ("prompts/" ++ prompt_filename pillar))))]) ∧
    analyze_file_pillar prompts client text pillar ≠ [] := by
  refine ⟨analyze_with_bedrock_missing prompts client text pillar hmiss,
    ?_, ?_⟩
  · intro out hout
    unfold analyze_file_pillar at hout
    by_cases hlen : 2000 < text.length
    · rw [if_pos hlen] at hout
      obtain ⟨chunk, _, hco⟩ := List.mem_map.mp hout
      rw [← hco,
        analyze_with_bedrock_missing prompts client chunk pillar hmiss]
      rfl
    · rw [if_neg hlen] at hout
      rcases List.mem_singleton.mp hout with h
      rw [h, analyze_with_bedrock_missing prompts client text pillar hmiss]
      rfl
  · unfold analyze_file_pillar
    by_cases hlen : 2000 < text.length
    · rw [if_pos hlen]
      have hne : text ≠ [] := by
        intro h
        rw [h] at hlen
        simp at hlen
      simp [chunk_text_ne_nil text 2000 (by omega) hne]
    · rw [if_neg hlen]
      simp

/-- Witness for the amended C4: with an empty prompt directory, the
Invoker's result for `Security` is the propagated `FileNotFoundError`,
and the Orchestrator's per-pillar step still yields a (nonempty) outcome
list rather than failing. -/
theorem invoker_missing_template_handled_witness :
    analyze_with_bedrock noPrompts stubClient "x".toList "Security"
      = Except.error (PyErr.fileNotFound "prompts/security.txt") ∧
    analyze_file_pillar noPrompts stubClient "x".toList "Security" ≠ [] := by
  have h := invoker_missing_template_handled noPrompts stubClient
    "x".toList "Security" rfl
  exact ⟨h.1.trans (by rfl), h.2.2⟩

/-- Claim C5: content of length at most 2000 (including exactly 2000) is
analyzed as a single unit — one Invoker call on the whole content, the
outcome wrapped in a one-element sequence — while content of length 2001
or more is chunked with chunk size 2000, giving at least two chunks. -/
theorem orchestrator_threshold (prompts : String → Option (List Char))
    (client : List Char → Except PyErr (List Char))
    (content : List Char) (pillar : String) :
    (content.length ≤ 2000 →
      analyze_file_pillar prompts client content pillar
        = [outcome (analyze_with_bedrock prompts client content pillar)]) ∧
    (2000 < content.length →
      analyze_file_pillar prompts client content pillar
          = (chunk_text content 2000).map
              (fun chunk =>
                outcome (analyze_with_bedrock prompts client chunk pillar)) ∧
        2 ≤ (chunk_text content 2000).length) := by
  constructor
  · intro h
    unfold analyze_file_pillar
    rw [if_neg (by omega)]
  · intro h
    constructor
    · unfold analyze_file_pillar
      rw [if_pos h]
    · have hc := chunk_text_go_length content.length content 2000
        (by omega) le_rfl
      unfold chunk_text
      rw [if_neg (by omega : ¬(2000 = 0)), hc,
        Nat.le_div_iff_mul_le (by omega : 0 < 2000)]
      omega

/-- Witness for C5: a 2-character file is analyzed as one unit; the
2001-character case is exercised by the C8 witness. -/
theorem orchestrator_threshold_witness :
    "ab".toList.length ≤ 2000 ∧
    analyze_file_pillar noPrompts stubClient "ab".toList "Security"
      = [outcome
          (analyze_with_bedrock noPrompts stubClient "ab".toList "Security")] :=
  ⟨by decide,
    (orchestrator_threshold noPrompts stubClient "ab".toList "Security").1
      (by decide)⟩

/-- Claim C8: when a file is chunked, the Orchestrator collects exactly one
outcome per chunk, in chunk order (the i-th outcome is the Invoker's
outcome on the i-th chunk); a failing chunk contributes the
`{"error": str(e)}` object at its own position, and — the whole map being
defined pointwise — it does not affect any other chunk's outcome, so
processing of the remaining chunks is not halted. -/
theorem chunked_outcomes (prompts : String → Option (List Char))
    (client : List Char → Except PyErr (List Char))
    (content : List Char) (pillar : String) (h : 2000 < content.length) :
    analyze_file_pillar prompts client content pillar
        = (chunk_text content 2000).map
            (fun chunk =>
              outcome (analyze_with_bedrock prompts client chunk pillar)) ∧
    (analyze_file_pillar prompts client content pillar).length
        = (chunk_text content 2000).length ∧
    (∀ i : Nat, (analyze_file_pillar prompts client content pillar)[i]?
        = ((chunk_text content 2000)[i]?).map
            (fun chunk =>
              outcome (analyze_with_bedrock prompts client chunk pillar))) ∧
    (∀ (i : Nat) (chunk : List Char) (e : PyErr),
      (chunk_text content 2000)[i]? = some chunk →
      analyze_with_bedrock prompts client chunk pillar = Except.error e →
      (analyze_file_pillar prompts client content pillar)[i]?
        = some (Json.obj [("error", Json.str (pyStr e))])) := by
  have hmap : analyze_file_pillar prompts client content pillar
      = (chunk_text content 2000).map
          (fun chunk =>
            outcome (analyze_with_bedrock prompts client chunk pillar)) := by
    unfold analyze_file_pillar
    rw [if_pos h]
  refine ⟨hmap, by rw [hmap]; simp, ?_, ?_⟩
  · intro i
    rw [hmap]
    exact List.getElem?_map _ _ _
  · intro i chunk e hci herr
    rw [hmap, List.getElem?_map, hci]
    simp [outcome, herr]

/-- Witness for C8: a 2001-character file with a prompt template present
but a client that always fails at transport level; the hypothesis holds
and the chunked map shape follows by applying `chunked_outcomes`. -/
theorem chunked_outcomes_witness :
    2000 < (List.replicate 2001 'a').length ∧
    analyze_file_pillar onePromptSecurity failClient
        (List.replicate 2001 'a') "Security"
      = (chunk_text (List.replicate 2001 'a') 2000).map
          (fun chunk =>
            outcome (analyze_with_bedrock onePromptSecurity failClient chunk
              "Security")) :=
  ⟨by rw [List.length_replicate]; omega,
    (chunked_outcomes onePromptSecurity failClient (List.replicate 2001 'a')
      "Security" (by rw [List.length_replicate]; omega)).1⟩

/-- The per-pillar outcome list is never empty: a single-element list for
unchunked content, one element per (nonempty) chunk list otherwise. -/
theorem analyze_file_pillar_ne_nil (prompts : String → Option (List Char))
    (client : List Char → Except PyErr (List Char))
    (content : List Char) (pillar : String) :
    analyze_file_pillar prompts client content pillar ≠ [] := by
  unfold analyze_file_pillar
  by_cases hlen : 2000 < content.length
  · rw [if_pos hlen]
    have hne : content ≠ [] := by
      intro h
      rw [h] at hlen
      simp at hlen
    simp [chunk_text_ne_nil content 2000 (by omega) hne]
  · rw [if_neg hlen]
    simp

/-- The `file_results` dict has exactly the six pillars as keys, in order. -/
theorem analyze_file_keys (prompts : String → Option (List Char))
    (client : List Char → Except PyErr (List Char)) (content : List Char) :
    (analyze_file prompts client content).map Prod.fst = pillars := by
  unfold analyze_file
  rw [List.map_map]
  exact List.map_id _

/-- Every pillar entry of `file_results` carries a nonempty outcome list. -/
theorem analyze_file_vals (prompts : String → Option (List Char))
    (client : List Char → Except PyErr (List Char)) (content : List Char) :
    ∀ pr ∈ analyze_file prompts client content, pr.2 ≠ [] := by
  intro pr hpr
  unfold analyze_file at hpr
  obtain ⟨p, _, he⟩ := List.mem_map.mp hpr
  rw [← he]
  exact analyze_file_pillar_ne_nil prompts client content p

/-- Updating an existing key leaves the key list unchanged. -/
theorem dictSet_keys_mem {α : Type} (d : List (String × α)) (k : String)
    (v : α) (h : k ∈ d.map Prod.fst) :
    (dictSet d k v).map Prod.fst = d.map Prod.fst := by
  unfold dictSet
  rw [if_pos h, List.map_map]
  apply List.map_congr_left
  intro kv _
  by_cases hk : kv.1 = k
  · simp [hk]
  · simp [hk]

/-- Inserting a fresh key appends it to the key list. -/
theorem dictSet_keys_not_mem {α : Type} (d : List (String × α)) (k : String)
    (v : α) (h : k ∉ d.map Prod.fst) :
    (dictSet d k v).map Prod.fst = d.map Prod.fst ++ [k] := by
  unfold dictSet
  rw [if_neg h]
  simp

/-- Python dict assignment keeps the keys distinct. -/
theorem dictSet_nodup {α : Type} (d : List (String × α)) (k : String) (v : α)
    (h : (d.map Prod.fst).Nodup) :
    ((dictSet d k v).map Prod.fst).Nodup := by
  by_cases hk : k ∈ d.map Prod.fst
  · rw [dictSet_keys_mem d k v hk]
    exact h
  · rw [dictSet_keys_not_mem d k v hk, List.nodup_append]
    refine ⟨h, List.nodup_singleton _, ?_⟩
    intro a ha hb
    rcases List.mem_singleton.mp hb with h2
    subst h2
    exact hk ha

/-- Every entry after an assignment is an old entry or the new binding. -/
theorem dictSet_entries {α : Type} (d : List (String × α)) (k : String)
    (v : α) (kv : String × α) (h : kv ∈ dictSet d k v) :
    kv ∈ d ∨ kv = (k, v) := by
  unfold dictSet at h
  by_cases hk : k ∈ d.map Prod.fst
  · rw [if_pos hk] at h
    obtain ⟨kv2, hkv2, he⟩ := List.mem_map.mp h
    by_cases h2 : kv2.1 = k
    · right
      rw [← he, if_pos h2]
    · left
      rw [← he, if_neg h2]
      exact hkv2
  · rw [if_neg hk] at h
    rcases List.mem_append.mp h with h3 | h3
    · left
      exact h3
    · right
      exact List.mem_singleton.mp h3

/-- Assignment never removes a key. -/
theorem dictSet_mem_keys {α : Type} (d : List (String × α)) (k : String)
    (v : α) (k2 : String) (h : k2 ∈ d.map Prod.fst) :
    k2 ∈ (dictSet d k v).map Prod.fst := by
  by_cases hk : k ∈ d.map Prod.fst
  · rw [dictSet_keys_mem d k v hk]
    exact h
  · rw [dictSet_keys_not_mem d k v hk]
    exact List.mem_append_left _ h

/-- The assigned key is a key afterwards. -/
theorem dictSet_self_mem_keys {α : Type} (d : List (String × α)) (k : String)
    (v : α) : k ∈ (dictSet d k v).map Prod.fst := by
  by_cases hk : k ∈ d.map Prod.fst
  · rw [dictSet_keys_mem d k v hk]
    exact hk
  · rw [dictSet_keys_not_mem d k v hk]
    simp

/-- One walk step on a readable `.tf` file is a dict assignment. -/
theorem walk_step_ok (prompts : String → Option (List Char))
    (client : List Char → Except PyErr (List Char))
    (results : List (String × List (String × List Json)))
    (n : String) (c : List Char) (htf : tfName n = true) :
    walk_step prompts client results ⟨n, Except.ok c⟩
      = dictSet results n (analyze_file prompts client c) := by
  unfold walk_step
  simp [htf]

/-- A walk step never removes a key from the results dict. -/
theorem walk_step_keys_mono (prompts : String → Option (List Char))
    (client : List Char → Except PyErr (List Char))
    (results : List (String × List (String × List Json)))
    (wf : WalkFile) (k : String) (h : k ∈ results.map Prod.fst) :
    k ∈ (walk_step prompts client results wf).map Prod.fst := by
  unfold walk_step
  by_cases htf : tfName wf.name
  · rw [if_pos htf]
    cases hc : wf.content with
    | ok content => exact dictSet_mem_keys _ _ _ _ h
    | error e => exact h
  · rw [if_neg htf]
    exact h

/-- Folding more walk steps never removes a key. -/
theorem run_keys_mono (prompts : String → Option (List Char))
    (client : List Char → Except PyErr (List Char)) :
    ∀ (files : List WalkFile)
      (acc : List (String × List (String × List Json))) (k : String),
      k ∈ acc.map Prod.fst →
      k ∈ (files.foldl (walk_step prompts client) acc).map Prod.fst := by
  intro files
  induction files with
  | nil => intro acc k h; exact h
  | cons wf rest ih =>
    intro acc k h
    rw [List.foldl_cons]
    exact ih _ k (walk_step_keys_mono prompts client acc wf k h)

/-- A successfully read `.tf` file leaves its base name among the report
keys. -/
theorem run_key_present (prompts : String → Option (List Char))
    (client : List Char → Except PyErr (List Char)) :
    ∀ (files : List WalkFile)
      (acc : List (String × List (String × List Json))) (wf : WalkFile),
      wf ∈ files → tfName wf.name = true →
      ∀ c : List Char, wf.content = Except.ok c →
      wf.name ∈ (files.foldl (walk_step prompts client) acc).map Prod.fst := by
  intro files
  induction files with
  | nil => intro acc wf h; simp at h
  | cons wf0 rest ih =>
    intro acc wf hmem htf c hok
    rw [List.foldl_cons]
    rcases List.mem_cons.mp hmem with he | hm
    · subst he
      apply run_keys_mono prompts client rest _ wf.name
      have hwf : wf = ⟨wf.name, Except.ok c⟩ := by
        cases wf
        simp at hok ⊢
        exact hok
      rw [hwf, walk_step_ok prompts client acc wf.name c htf]
      exact dictSet_self_mem_keys _ _ _
    · exact ih _ wf hm htf c hok

/-- Folding the walk preserves the report invariant: distinct keys, and
every stored FileReport lists exactly the six pillars with nonempty
outcome lists. -/
theorem run_entries_good (prompts : String → Option (List Char))
    (client : List Char → Except PyErr (List Char)) :
    ∀ (files : List WalkFile)
      (acc : List (String × List (String × List Json))),
      ((acc.map Prod.fst).Nodup ∧
        ∀ kv ∈ acc, kv.2.map Prod.fst = pillars ∧ ∀ pr ∈ kv.2, pr.2 ≠ []) →
      (((files.foldl (walk_step prompts client) acc).map Prod.fst).Nodup ∧
        ∀ kv ∈ files.foldl (walk_step prompts client) acc,
          kv.2.map Prod.fst = pillars ∧ ∀ pr ∈ kv.2, pr.2 ≠ []) := by
  intro files
  induction files with
  | nil => intro acc h; exact h
  | cons wf rest ih =>
    intro acc h
    rw [List.foldl_cons]
    apply ih
    unfold walk_step
    by_cases htf : tfName wf.name
    · rw [if_pos htf]
      cases hc : wf.content with
      | error e => exact h
      | ok content =>
        constructor
        · exact dictSet_nodup _ _ _ h.1
        · intro kv hkv
          rcases dictSet_entries _ _ _ _ hkv with hin | he
          · exact h.2 kv hin
          · rw [he]
            exact ⟨analyze_file_keys prompts client content,
              analyze_file_vals prompts client content⟩
    · rw [if_neg htf]
      exact h

/-- No entry under a key that is not in the dict. -/
theorem filterKey_eq_nil {α : Type} :
    ∀ (d : List (String × α)) (n : String), n ∉ d.map Prod.fst →
      filterKey d n = [] := by
  intro d
  induction d with
  | nil => intro n _; rfl
  | cons kv rest ih =>
    intro n h
    simp only [List.map_cons, List.mem_cons, not_or] at h
    unfold filterKey at ih ⊢
    rw [List.filter_cons]
    have h1 : (kv.1 == n) = false := by
      simp only [beq_eq_false_iff_ne]
      intro he
      exact h.1 he.symm
    rw [h1]
    simp only [Bool.false_eq_true, if_false]
    exact ih n h.2

/-- A present key has at least one entry. -/
theorem mem_keys_filterKey_ne {α : Type} (d : List (String × α)) (n : String)
    (h : n ∈ d.map Prod.fst) : filterKey d n ≠ [] := by
  obtain ⟨kv, hkv, he⟩ := List.mem_map.mp h
  intro hnil
  have hmem : kv ∈ filterKey d n :=
    List.mem_filter.mpr ⟨hkv, by simp [he]⟩
  rw [hnil] at hmem
  simp at hmem

/-- With distinct keys, a present key has exactly one entry. -/
theorem filterKey_length_one {α : Type} :
    ∀ (d : List (String × α)) (n : String), (d.map Prod.fst).Nodup →
      n ∈ d.map Prod.fst → (filterKey d n).length = 1 := by
  intro d
  induction d with
  | nil => intro n _ hmem; simp at hmem
  | cons kv rest ih =>
    intro n hnodup hmem
    rw [List.map_cons] at hnodup hmem
    have hnd := List.nodup_cons.mp hnodup
    unfold filterKey at ih ⊢
    rw [List.filter_cons]
    rcases List.mem_cons.mp hmem with he | hm
    · have hc : (kv.1 == n) = true := by
        rw [← he]
        exact beq_self_eq_true n
      rw [hc]
      simp only [if_true, List.length_cons]
      have hno : n ∉ rest.map Prod.fst := by
        rw [he]
        exact hnd.1
      have hfe := filterKey_eq_nil rest n hno
      unfold filterKey at hfe
      rw [hfe]
      rfl
    · have hne : (kv.1 == n) = false := by
        simp only [beq_eq_false_iff_ne]
        intro he2
        rw [he2] at hnd
        exact hnd.1 hm
      rw [hne]
      simp only [Bool.false_eq_true, if_false]
      exact ih n hnd.2 hm

/-- Claim C6: every successfully read `.tf` file contributes exactly one
FileReport entry to the final report (report keys stay distinct), and
every entry maps exactly the six enumerated pillars, each to a nonempty
outcome sequence — even when every category analysis failed, since a
failure becomes an error-tagged placeholder in the list rather than an
omitted category. -/
theorem report_covers_pillars (prompts : String → Option (List Char))
    (client : List Char → Except PyErr (List Char)) (files : List WalkFile)
    (wf : WalkFile) (hmem : wf ∈ files) (htf : tfName wf.name = true)
    (c : List Char) (hok : wf.content = Except.ok c) :
    (filterKey (run_analysis prompts client files) wf.name).length = 1 ∧
    ∀ kv ∈ run_analysis prompts client files,
      kv.2.map Prod.fst = pillars ∧ ∀ pr ∈ kv.2, pr.2 ≠ [] := by
  have hgood := run_entries_good prompts client files [] (by simp)
  have hpres := run_key_present prompts client files [] wf hmem htf c hok
  exact ⟨filterKey_length_one _ wf.name hgood.1 hpres, hgood.2⟩

/-- Witness for C6: one readable `.tf` file analyzed with an empty prompt
directory (so every category fails); the report still has exactly one
entry for it. -/
theorem report_covers_pillars_witness :
    (filterKey (run_analysis noPrompts stubClient
        [⟨"main.tf", Except.ok "abc".toList⟩]) "main.tf").length = 1 :=
  (report_covers_pillars noPrompts stubClient
    [⟨"main.tf", Except.ok "abc".toList⟩] ⟨"main.tf", Except.ok "abc".toList⟩
    (List.mem_singleton.mpr rfl) (by decide) "abc".toList rfl).1

/-- Claim C9: a run over a directory walk containing one 3500-character
`.tf` file produces one report entry under that file's key; its FileReport
lists the six categories, each category holds exactly 2 chunk outcomes —
the i-th outcome being the Invoker's outcome on the i-th chunk as cut from
the source text (`take 2000`, then the remaining 1500) — and the outcome
lists together account for 6 × 2 = 12 Invoker invocations. -/
theorem end_to_end_3500 (prompts : String → Option (List Char))
    (client : List Char → Except PyErr (List Char)) (content : List Char)
    (name : String) (hlen : content.length = 3500) (htf : tfName name = true) :
    run_analysis prompts client [⟨name, Except.ok content⟩]
        = [(name, analyze_file prompts client content)] ∧
    (analyze_file prompts client content).map Prod.fst = pillars ∧
    (∀ pr ∈ analyze_file prompts client content,
      pr.2 = [outcome (analyze_with_bedrock prompts client
                (content.take 2000) pr.1),
              outcome (analyze_with_bedrock prompts client
                ((content.drop 2000).take 2000) pr.1)]) ∧
    ((analyze_file prompts client content).map fun pr => pr.2.length).sum
      = 12 := by
  have hne : content ≠ [] := by
    intro h
    rw [h] at hlen
    simp at hlen
  have hd : content.drop 2000 ≠ [] := by
    intro h
    have hlen2 := congrArg List.length h
    simp at hlen2
    omega
  have h3 : (content.drop 2000).drop 2000 = [] := by
    apply List.eq_nil_of_length_eq_zero
    simp
    omega
  have hchunk : chunk_text content 2000
      = [content.take 2000, (content.drop 2000).take 2000] := by
    rw [chunk_text_step content 2000 (by omega) hne,
      chunk_text_step (content.drop 2000) 2000 (by omega) hd, h3]
    rfl
  have hpil : ∀ p : String, analyze_file_pillar prompts client content p
      = [outcome (analyze_with_bedrock prompts client (content.take 2000) p),
         outcome (analyze_with_bedrock prompts client
           ((content.drop 2000).take 2000) p)] := by
    intro p
    unfold analyze_file_pillar
    rw [if_pos (by omega : 2000 < content.length), hchunk]
    rfl
  refine ⟨?_, analyze_file_keys prompts client content, ?_, ?_⟩
  · unfold run_analysis
    rw [List.foldl_cons, List.foldl_nil,
      walk_step_ok prompts client [] name content htf]
    unfold dictSet
    simp
  · intro pr hpr
    obtain ⟨p, _, he⟩ := List.mem_map.mp hpr
    rw [← he]
    exact hpil p
  · unfold analyze_file
    rw [List.map_map]
    have hcong : ∀ p ∈ pillars,
        ((fun pr : String × List Json => pr.2.length) ∘
          fun p => (p, analyze_file_pillar prompts client content p)) p
          = (fun _ => 2) p := by
      intro p _
      simp [hpil p]
    rw [List.map_congr_left hcong]
    rfl

/-- Witness for C9: the 3500-character file `main.tf` under the six
pillars with a template present for `Security` only and a failing
transport; the hypotheses hold and the report shape and the 12-invocation
count follow by applying `end_to_end_3500`. -/
theorem end_to_end_3500_witness :
    (List.replicate 3500 'a').length = 3500 ∧
    run_analysis onePromptSecurity failClient
        [⟨"main.tf", Except.ok (List.replicate 3500 'a')⟩]
      = [("main.tf",
          analyze_file onePromptSecurity failClient
            (List.replicate 3500 'a'))] ∧
    ((analyze_file onePromptSecurity failClient
        (List.replicate 3500 'a')).map fun pr => pr.2.length).sum = 12 := by
  have h := end_to_end_3500 onePromptSecurity failClient
    (List.replicate 3500 'a') "main.tf" (by rw [List.length_replicate])
    (by decide)
  exact ⟨by rw [List.length_replicate], h.1, h.2.2.2⟩

/-- Updating the value at key `k` commutes with filtering on key `n`:
the in-place update rewrites keys nowhere, so the `n`-entries of the
updated dict are the updated `n`-entries. -/
theorem filterKey_map_replace {α : Type} :
    ∀ (d : List (String × α)) (k n : String) (v : α),
      filterKey (d.map fun kv => if kv.1 = k then (k, v) else kv) n
        = (filterKey d n).map fun kv => if kv.1 = k then (k, v) else kv := by
  intro d
  induction d with
  | nil => intro k n v; rfl
  | cons kv rest ih =>
    intro k n v
    rw [List.map_cons]
    unfold filterKey at ih ⊢
    rw [List.filter_cons, List.filter_cons]
    by_cases h1 : kv.1 = k
    · rw [if_pos h1]
      by_cases h2 : k = n
      · have hc1 : ((k, v).1 == n) = true := by simp [h2]
        have hc2 : (kv.1 == n) = true := by simp [h1, h2]
        rw [hc1, hc2]
        simp only [if_true, List.map_cons, if_pos h1, ih]
      · have hc1 : ((k, v).1 == n) = false := by
          simp only [beq_eq_false_iff_ne]
          exact h2
        have hc2 : (kv.1 == n) = false := by
          simp only [beq_eq_false_iff_ne]
          rw [h1]
          exact h2
        rw [hc1, hc2]
        simp only [Bool.false_eq_true, if_false, ih]
    · rw [if_neg h1]
      by_cases h2 : kv.1 = n
      · have hc : (kv.1 == n) = true := by simp [h2]
        rw [hc]
        simp only [if_true, List.map_cons, if_neg h1, ih]
      · have hc : (kv.1 == n) = false := by
          simp only [beq_eq_false_iff_ne]
          exact h2
        rw [hc]
        simp only [Bool.false_eq_true, if_false, ih]

/-- Assigning a key that already has exactly one entry replaces that
entry's value. -/
theorem dictSet_filterKey_same {α : Type} (d : List (String × α))
    (n : String) (v w : α) (h : filterKey d n = [(n, w)]) :
    filterKey (dictSet d n v) n = [(n, v)] := by
  have hmem : n ∈ d.map Prod.fst := by
    by_contra hno
    rw [filterKey_eq_nil d n hno] at h
    simp at h
  unfold dictSet
  rw [if_pos hmem, filterKey_map_replace, h]
  simp

/-- Assigning a fresh key adds exactly one entry under it. -/
theorem dictSet_filterKey_new {α : Type} (d : List (String × α))
    (n : String) (v : α) (h : n ∉ d.map Prod.fst) :
    filterKey (dictSet d n v) n = [(n, v)] := by
  unfold dictSet
  rw [if_neg h]
  unfold filterKey
  rw [List.filter_append]
  have hfe := filterKey_eq_nil d n h
  unfold filterKey at hfe
  rw [hfe]
  simp

/-- Assigning under one key never changes the entries under another. -/
theorem dictSet_filterKey_other {α : Type} (d : List (String × α))
    (k : String) (v : α) (n : String) (hne : k ≠ n) :
    filterKey (dictSet d k v) n = filterKey d n := by
  unfold dictSet
  by_cases hk : k ∈ d.map Prod.fst
  · rw [if_pos hk, filterKey_map_replace]
    have hid : (filterKey d n).map (fun kv => if kv.1 = k then (k, v) else kv)
        = (filterKey d n).map id := by
      apply List.map_congr_left
      intro kv hkv
      have hkvn : (kv.1 == n) = true := (List.mem_filter.mp hkv).2
      have hnk : kv.1 ≠ k := by
        intro he
        rw [← eq_of_beq hkvn] at hne
        exact hne he.symm
      rw [if_neg hnk]
      rfl
    rw [hid, List.map_id]
  · rw [if_neg hk]
    unfold filterKey
    rw [List.filter_append]
    have : ((k, v).1 == n) = false := by
      simp only [beq_eq_false_iff_ne]
      exact hne
    simp [this]

/-- A walk step for a file with a different base name does not change the
entries stored under `n`. -/
theorem walk_step_filterKey_other (prompts : String → Option (List Char))
    (client : List Char → Except PyErr (List Char))
    (results : List (String × List (String × List Json)))
    (wf : WalkFile) (n : String) (hne : wf.name ≠ n) :
    filterKey (walk_step prompts client results wf) n
      = filterKey results n := by
  unfold walk_step
  by_cases htf : tfName wf.name
  · rw [if_pos htf]
    cases hc : wf.content with
    | ok content => exact dictSet_filterKey_other results wf.name _ n hne
    | error e => rfl
  · rw [if_neg htf]

/-- Folding walk steps over files that all have other base names does not
change the entries stored under `n`. -/
theorem run_filterKey_other (prompts : String → Option (List Char))
    (client : List Char → Except PyErr (List Char)) :
    ∀ (files : List WalkFile)
      (acc : List (String × List (String × List Json))) (n : String),
      (∀ wf ∈ files, wf.name ≠ n) →
      filterKey (files.foldl (walk_step prompts client) acc) n
        = filterKey acc n := by
  intro files
  induction files with
  | nil => intro acc n _; rfl
  | cons wf rest ih =>
    intro acc n h
    rw [List.foldl_cons,
      ih _ n (fun w hw => h w (List.mem_cons_of_mem _ hw)),
      walk_step_filterKey_other prompts client acc wf n
        (h wf (List.mem_cons_self _ _))]

/-- Claim C10: the AnalysisReport is keyed by base file name only.
`os.walk` yields the files of every subdirectory, and line 153 stores the
FileReport under `file`, the base name, not the path; so when two
successfully read `.tf` files — here separated by arbitrary other files —
share a base name, the report holds a single entry under that name, and
it carries the FileReport of whichever file was walked last: the later
file's results overwrite the earlier file's. -/
theorem report_last_wins (prompts : String → Option (List Char))
    (client : List Char → Except PyErr (List Char))
    (o1 o2 : List WalkFile) (n : String) (c1 c2 : List Char)
    (h1 : ∀ wf ∈ o1, wf.name ≠ n) (h2 : ∀ wf ∈ o2, wf.name ≠ n)
    (htf : tfName n = true) :
    filterKey
        (run_analysis prompts client
          (o1 ++ ⟨n, Except.ok c1⟩ :: (o2 ++ [⟨n, Except.ok c2⟩]))) n
      = [(n, analyze_file prompts client c2)] := by
  unfold run_analysis
  rw [List.foldl_append, List.foldl_cons, List.foldl_append,
    List.foldl_cons, List.foldl_nil]
  have hA0 : filterKey (List.foldl (walk_step prompts client) [] o1) n
      = [] := by
    rw [run_filterKey_other prompts client o1 [] n h1]
    rfl
  have hA0mem : n ∉ (List.foldl (walk_step prompts client) [] o1).map
      Prod.fst := by
    intro hmem
    exact mem_keys_filterKey_ne _ n hmem hA0
  rw [walk_step_ok prompts client _ n c1 htf]
  have hA1 : filterKey
      (dictSet (List.foldl (walk_step prompts client) [] o1) n
        (analyze_file prompts client c1)) n
      = [(n, analyze_file prompts client c1)] :=
    dictSet_filterKey_new _ n _ hA0mem
  rw [walk_step_ok prompts client _ n c2 htf]
  apply dictSet_filterKey_same
  rw [run_filterKey_other prompts client o2 _ n h2]
  exact hA1

/-- Witness for C10: `main.tf` read once with content `aaa` and later —
from another subdirectory — with content `bbb`, with an unrelated
`other.tf` in between walked first; the single `main.tf` entry holds the
second file's FileReport. -/
theorem report_last_wins_witness :
    filterKey
        (run_analysis noPrompts stubClient
          ([⟨"other.tf", Except.ok "x".toList⟩] ++
            ⟨"main.tf", Except.ok "aaa".toList⟩ ::
              ([] ++ [⟨"main.tf", Except.ok "bbb".toList⟩]))) "main.tf"
      = [("main.tf", analyze_file noPrompts stubClient "bbb".toList)] :=
  report_last_wins noPrompts stubClient
    [⟨"other.tf", Except.ok "x".toList⟩] [] "main.tf" "aaa".toList
    "bbb".toList (by decide) (by decide) (by decide)
